import Mathlib

/-!
# tchat: the socket layer of `backend/server.js`

A shallow embedding of the Socket.io event handlers of `backend/server.js`
(lines 19-20 and 238-358), of the message schema of `backend/models/message.js`
and of the room seed of `backend/seedRooms.js`.

Modelling conventions.

* A payload field is a JavaScript string or `undefined`: `Field = Option String`.
* `socket.id` is an opaque identifier generated by the server: `SocketId = Nat`.
* `userSockets` and `usernameToSocket` are plain object literals (`{}`): they are
  association lists in insertion order, and a property read on `usernameToSocket`
  (whose keys are chosen by clients) falls back to `Object.prototype`.
* Every handler is one atomic step `World → World × List Emit`. An `async` handler has no
  `try`/`catch` and the server installs no `unhandledRejection` handler: when its
  `await Message.create` rejects, nothing more is emitted and the Node process exits
  (`processExit`); a process that has exited handles no further event.
* `Date.now` is the argument `now` of the handlers that write a message.
* The Socket.io adapter is the list `adapter` of (connection, room) subscriptions
  together with the list `connected` of open connections.
* The identity `socket.user` attached by the `io.use` middleware is the field `user` of
  `Socket`; the handlers read `socket.id` only.
-/

namespace TChat

/-! ## JavaScript values -/

/-- The identifier `socket.id` of a connection. -/
abbrev SocketId := Nat

/-- A payload field: a JavaScript string, or `undefined` when it is absent. -/
abbrev Field := Option String

/-- JavaScript truthiness of a string-or-undefined value, as in `if (room)`. -/
def truthy : Field → Bool
  | some s => s != ""
  | none => false

/-- The property key a value is converted to in `obj[value]`. -/
def propKey : Field → String
  | some s => s
  | none => "undefined"

/-- The names of the properties every object literal inherits from `Object.prototype`. -/
def protoKeys : List String :=
  ["constructor", "__defineGetter__", "__defineSetter__", "hasOwnProperty",
   "__lookupGetter__", "__lookupSetter__", "isPrototypeOf", "propertyIsEnumerable",
   "toString", "valueOf", "__proto__", "toLocaleString"]

/-- What a property read on `usernameToSocket` can yield besides `undefined`: the socket id
stored under the key, or a member of `Object.prototype` (a function or object, truthy). -/
inductive PropVal where
  | sid (id : SocketId)
  | inherited (key : String)
deriving DecidableEq, Repr

/-- The own properties of an object literal used as a dictionary, in insertion order. -/
abbrev Dict (κ ν : Type) := List (κ × ν)

/-! ## Data model -/

/-- A value of `userSockets`: `{ username, room }` (server.js:19). -/
structure Session where
  username : Field
  room : Field
deriving DecidableEq, Repr

/-- A document of the Room collection: `{ name, allowedUsers }` (seedRooms.js:5-9). -/
structure RoomDoc where
  name : String
  allowedUsers : List String
deriving DecidableEq, Repr

/-- A stored document of `messageSchema` (models/message.js:3-13); `from` and `text` are
required, `to` and `room` are optional, `timestamp` defaults to the time of creation. -/
structure Message where
  from_ : String
  to_ : Field
  room : Field
  text : String
  timestamp : Nat
deriving DecidableEq, Repr

/-- The payload `{ room, username }` of `join-room` (server.js:254). -/
structure JoinRoomData where
  room : Field
  username : Field
deriving DecidableEq, Repr

/-- The payload `{ room, username }` of `leave-room` (server.js:281). -/
structure LeaveRoomData where
  room : Field
  username : Field
deriving DecidableEq, Repr

/-- The payload `{ room, msg, user }` of `room-message` (server.js:291). -/
structure RoomMessageData where
  room : Field
  msg : Field
  user : Field
deriving DecidableEq, Repr

/-- The payload `{ to, from, msg }` of `dm` (server.js:304). -/
structure DmData where
  to_ : Field
  from_ : Field
  msg : Field
deriving DecidableEq, Repr

/-- The payload `{ user1, user2 }` of `get-dm-history` (server.js:320). -/
structure DmHistoryData where
  user1 : Field
  user2 : Field
deriving DecidableEq, Repr

/-- The argument of `Message.create`: the fields the handlers pass (server.js:293, 307). -/
structure MessageInput where
  from_ : Field
  to_ : Field
  room : Field
  text : Field
deriving DecidableEq, Repr

/-- The addressee of an emitted event. -/
inductive Dest where
  /-- The call `socket.emit(...)`: the handling connection only. -/
  | socket (id : SocketId)
  /-- The call `io.to(room).emit(...)`: every connection subscribed to `room`. -/
  | room (room : Field)
  /-- The call `socket.to(room).emit(...)`: the subscribers of `room` except the connection. -/
  | roomExcept (room : Field) (id : SocketId)
  /-- The call `io.to(targetSocketId).emit(...)` of the dm handler. -/
  | channel (target : PropVal)
deriving DecidableEq, Repr

/-- An event name with its payload. -/
inductive Payload where
  | joinRoomSuccess (room : Field)
  | joinRoomError (msg : String)
  | roomHistory (history : List Message)
  | roomUsers (users : List Field)
  | roomMessage (data : RoomMessageData)
  | dm (data : DmData)
  | dmError (msg : String)
  | dmHistory (history : List Message)
  | usersList (users : List Field)
deriving DecidableEq, Repr

/-- One `emit` call. -/
structure Emit where
  dest : Dest
  payload : Payload
deriving DecidableEq, Repr

/-- The server state the handlers read and write. -/
structure World where
  /-- The object `userSockets` (server.js:19), in insertion order. -/
  userSockets : Dict SocketId Session
  /-- The object `usernameToSocket` (server.js:20). -/
  usernameToSocket : Dict String SocketId
  /-- The subscriptions made by `socket.join` and undone by `socket.leave`. -/
  adapter : List (SocketId × Field)
  /-- The connections that are open. -/
  connected : List SocketId
  /-- The Message collection. -/
  messages : List Message
  /-- Whether the Node process has exited. -/
  exited : Bool
deriving DecidableEq, Repr

/-- The state at server start. -/
def World.empty : World := ⟨[], [], [], [], [], false⟩

/-- The rooms of `seedRooms.js`. -/
def rooms : List RoomDoc :=
  [ ⟨"general", ["admin", "abc", "xyz"]⟩,
    ⟨"private", ["admin", "abc"]⟩ ]

/-! ## The two registry objects -/

/-- The own property of a dictionary under a key, if there is one. -/
def Dict.get {κ ν : Type} [DecidableEq κ] : Dict κ ν → κ → Option ν
  | [], _ => none
  | e :: m, k => if e.1 = k then some e.2 else Dict.get m k

/-- An own-property write: an existing key keeps its place, a new key goes last. -/
def Dict.set {κ ν : Type} [DecidableEq κ] : Dict κ ν → κ → ν → Dict κ ν
  | [], k, v => [(k, v)]
  | e :: m, k, v => if e.1 = k then (k, v) :: m else e :: Dict.set m k v

/-- The removal of an own property. -/
def Dict.delete {κ ν : Type} [DecidableEq κ] : Dict κ ν → κ → Dict κ ν
  | [], _ => []
  | e :: m, k => if e.1 = k then Dict.delete m k else e :: Dict.delete m k

/-- The read `userSockets[socket.id]`. -/
def getSession (us : Dict SocketId Session) (id : SocketId) : Option Session :=
  us.get id

/-- The write `userSockets[socket.id] = v`. -/
def setSession (us : Dict SocketId Session) (id : SocketId) (v : Session) :
    Dict SocketId Session :=
  us.set id v

/-- The statement `delete userSockets[socket.id]`. -/
def deleteSession (us : Dict SocketId Session) (id : SocketId) : Dict SocketId Session :=
  us.delete id

/-- The own property `usernameToSocket[key]`, if there is one. -/
def ownEntry (m : Dict String SocketId) (key : String) : Option SocketId :=
  m.get key

/-- The read `usernameToSocket[v]`: the own property, else the property inherited from
`Object.prototype`, else `undefined` (`none`). -/
def getIndex (m : Dict String SocketId) (v : Field) : Option PropVal :=
  match ownEntry m (propKey v) with
  | some id => some (.sid id)
  | none => if propKey v ∈ protoKeys then some (.inherited (propKey v)) else none

/-- The write `usernameToSocket[v] = socket.id`; assigning a string to `__proto__` runs the
inherited setter, which ignores it. -/
def setIndex (m : Dict String SocketId) (v : Field) (id : SocketId) : Dict String SocketId :=
  if propKey v = "__proto__" then m else m.set (propKey v) id

/-- The statement `delete usernameToSocket[v]`. -/
def deleteIndex (m : Dict String SocketId) (v : Field) : Dict String SocketId :=
  m.delete (propKey v)

/-- The helper `getUsersInRoom(room)` (server.js:336-340). -/
def getUsersInRoom (us : Dict SocketId Session) (room : Field) : List Field :=
  ((us.map (fun e => e.2)).filter (fun u => u.room == room)).map (fun u => u.username)

/-- The expression `userSockets[socket.id]?.room`. -/
def sessionRoom (us : Dict SocketId Session) (id : SocketId) : Field :=
  (getSession us id).bind (fun u => u.room)

/-! ## The adapter -/

/-- The call `socket.join(room)`. -/
def adapterJoin (a : List (SocketId × Field)) (id : SocketId) (room : Field) :
    List (SocketId × Field) :=
  if (id, room) ∈ a then a else a ++ [(id, room)]

/-- The call `socket.leave(room)`. -/
def adapterLeave (a : List (SocketId × Field)) (id : SocketId) (room : Field) :
    List (SocketId × Field) :=
  a.filter (fun e => e != (id, room))

/-- The rooms a connection is subscribed to. -/
def subscriptions (w : World) (id : SocketId) : List Field :=
  (w.adapter.filter (fun e => e.1 == id)).map (fun e => e.2)

/-- The open connections subscribed to `room`. -/
def subscribers (w : World) (room : Field) : List SocketId :=
  w.connected.filter (fun c => (c, room) ∈ w.adapter)

/-- The connections an emit reaches. -/
def recipients (w : World) : Dest → List SocketId
  | .socket id => if id ∈ w.connected then [id] else []
  | .room r => subscribers w r
  | .roomExcept r id => (subscribers w r).filter (fun c => c != id)
  | .channel (.sid t) => if t ∈ w.connected then [t] else []
  | .channel (.inherited _) => []

/-! ## The stores -/

/-- The query `Room.findOne({ name: room })`. -/
def Room.findOne (store : List RoomDoc) (room : Field) : Option RoomDoc :=
  store.find? (fun d => some d.name == room)

/-- The test `roomDoc.allowedUsers.includes(username)`. -/
def includes (allowedUsers : List String) (username : Field) : Bool :=
  allowedUsers.any (fun u => some u == username)

/-- The `required: true` validator of a String path: the value is a non-empty string. -/
def required : Field → Option String
  | some s => if s = "" then none else some s
  | none => none

/-- The call `Message.create(doc)`: validation, then the default timestamp, then the insert.
The result is `none` when validation rejects the document (the returned promise rejects). -/
def Message.create (store : List Message) (doc : MessageInput) (now : Nat) :
    Option (List Message) :=
  match required doc.from_, required doc.text with
  | some f, some t => some (store ++ [⟨f, doc.to_, doc.room, t, now⟩])
  | _, _ => none

/-- The chain `.sort({ timestamp: 1 }).limit(20)` applied to the documents a `find` matched. -/
def sortLimit (found : List Message) : List Message :=
  (found.insertionSort (fun a b => a.timestamp ≤ b.timestamp)).take 20

/-- The query `Message.find({ room }).sort({ timestamp: 1 }).limit(20)` (server.js:274). -/
def roomHistory (store : List Message) (room : Field) : List Message :=
  sortLimit (store.filter (fun m => m.room == room))

/-- The query of `get-dm-history` (server.js:321-326). -/
def dmHistory (store : List Message) (user1 user2 : Field) : List Message :=
  sortLimit (store.filter (fun m =>
    (some m.from_ == user1 && m.to_ == user2) || (some m.from_ == user2 && m.to_ == user1)))

/-! ## The handlers -/

/-- The `connection` event (server.js:238-240): the connection is open and its handlers are
registered; neither registry object is written. -/
def connection (w : World) (id : SocketId) : World × List Emit :=
  ({ w with connected := w.connected ++ [id] }, [])

/-- The `logout` handler (server.js:242-251). -/
def logout (w : World) (id : SocketId) : World × List Emit :=
  match getSession w.userSockets id with
  | some u =>
    ({ w with
        usernameToSocket := deleteIndex w.usernameToSocket u.username
        userSockets := deleteSession w.userSockets id },
     if truthy u.room then
       [⟨.roomExcept u.room id,
         .roomUsers ((getUsersInRoom w.userSockets u.room).filter (fun n => n != u.username))⟩]
     else [])
  | none => (w, [])

/-- The `join-room` handler (server.js:254-278). -/
def joinRoom (store : List RoomDoc) (w : World) (id : SocketId) (p : JoinRoomData) :
    World × List Emit :=
  match Room.findOne store p.room with
  | none => (w, [⟨.socket id, .joinRoomError "Room does not exist."⟩])
  | some roomDoc =>
    if !includes roomDoc.allowedUsers p.username then
      (w, [⟨.socket id, .joinRoomError "You are not allowed to join this room."⟩])
    else
      let left :=
        if truthy (sessionRoom w.userSockets id) then
          adapterLeave w.adapter id (sessionRoom w.userSockets id)
        else w.adapter
      let userSockets := setSession w.userSockets id ⟨p.username, p.room⟩
      ({ w with
          adapter := adapterJoin left id p.room
          userSockets := userSockets
          usernameToSocket := setIndex w.usernameToSocket p.username id },
       [⟨.socket id, .joinRoomSuccess p.room⟩,
        ⟨.socket id, .roomHistory (roomHistory w.messages p.room)⟩,
        ⟨.room p.room, .roomUsers (getUsersInRoom userSockets p.room)⟩])

/-- The `leave-room` handler (server.js:281-287). -/
def leaveRoom (w : World) (id : SocketId) (p : LeaveRoomData) : World × List Emit :=
  match getSession w.userSockets id with
  | some u =>
    if u.room = p.room then
      let userSockets := setSession w.userSockets id { u with room := none }
      ({ w with
          adapter := adapterLeave w.adapter id p.room
          userSockets := userSockets },
       [⟨.room p.room,
         .roomUsers ((getUsersInRoom userSockets p.room).filter (fun n => n != p.username))⟩])
    else (w, [])
  | none => (w, [])

/-- The exit of the Node process on an unhandled rejection: every connection and both
registry objects, which live in the memory of the process, are lost; the store is kept. -/
def processExit (w : World) : World :=
  { userSockets := []
    usernameToSocket := []
    adapter := []
    connected := []
    messages := w.messages
    exited := true }

/-- The `room-message` handler (server.js:290-300). The rejection of `Message.create` is
not caught. -/
def roomMessage (w : World) (id : SocketId) (data : RoomMessageData) (now : Nat) :
    World × List Emit :=
  if sessionRoom w.userSockets id = data.room then
    match Message.create w.messages ⟨data.user, none, data.room, data.msg⟩ now with
    | some stored => ({ w with messages := stored }, [⟨.room data.room, .roomMessage data⟩])
    | none => (processExit w, [])
  else (w, [])

/-- The `dm` handler (server.js:303-317). The rejection of `Message.create` is not
caught. -/
def dm (w : World) (id : SocketId) (data : DmData) (now : Nat) : World × List Emit :=
  match getIndex w.usernameToSocket data.to_ with
  | some targetSocketId =>
    match Message.create w.messages ⟨data.from_, data.to_, none, data.msg⟩ now with
    | some stored =>
      ({ w with messages := stored },
       [⟨.channel targetSocketId, .dm data⟩, ⟨.socket id, .dm data⟩])
    | none => (processExit w, [])
  | none => (w, [⟨.socket id, .dmError ("User " ++ propKey data.to_ ++ " is not online.")⟩])

/-- The `get-dm-history` handler (server.js:320-328). -/
def getDmHistory (w : World) (id : SocketId) (p : DmHistoryData) : World × List Emit :=
  (w, [⟨.socket id, .dmHistory (dmHistory w.messages p.user1 p.user2)⟩])

/-- The `get-users` handler (server.js:331-333). -/
def getUsers (w : World) (id : SocketId) (room : Field) : World × List Emit :=
  (w, [⟨.socket id, .usersList (getUsersInRoom w.userSockets room)⟩])

/-- The `disconnect` handler (server.js:343-351). Socket.io has closed the connection and
removed it from every room before the handler runs. -/
def disconnect (w : World) (id : SocketId) : World × List Emit :=
  let adapter := w.adapter.filter (fun e => e.1 != id)
  let connected := w.connected.filter (fun c => c != id)
  match getSession w.userSockets id with
  | some user =>
    if truthy user.room then
      ({ w with
          adapter := adapter
          connected := connected
          usernameToSocket := deleteIndex w.usernameToSocket user.username
          userSockets := deleteSession w.userSockets id },
       [⟨.roomExcept user.room id,
         .roomUsers ((getUsersInRoom w.userSockets user.room).filter
           (fun n => n != user.username))⟩])
    else
      ({ w with
          adapter := adapter
          connected := connected
          userSockets := deleteSession w.userSockets id }, [])
  | none =>
    ({ w with
        adapter := adapter
        connected := connected
        userSockets := deleteSession w.userSockets id }, [])

/-! ## Event sequences -/

/-- An event the server receives on a connection. -/
inductive Event where
  | connection (id : SocketId)
  | logout (id : SocketId)
  | joinRoom (id : SocketId) (p : JoinRoomData)
  | leaveRoom (id : SocketId) (p : LeaveRoomData)
  | roomMessage (id : SocketId) (data : RoomMessageData) (now : Nat)
  | dm (id : SocketId) (data : DmData) (now : Nat)
  | getDmHistory (id : SocketId) (p : DmHistoryData)
  | getUsers (id : SocketId) (room : Field)
  | disconnect (id : SocketId)
deriving DecidableEq, Repr

/-- The dispatch of one event to its handler; a process that has exited handles nothing. -/
def step (store : List RoomDoc) (w : World) (e : Event) : World × List Emit :=
  if w.exited then (w, [])
  else
    match e with
    | .connection id => connection w id
    | .logout id => logout w id
    | .joinRoom id p => joinRoom store w id p
    | .leaveRoom id p => leaveRoom w id p
    | .roomMessage id data now => roomMessage w id data now
    | .dm id data now => dm w id data now
    | .getDmHistory id p => getDmHistory w id p
    | .getUsers id room => getUsers w id room
    | .disconnect id => disconnect w id

/-- The state after a sequence of events. -/
def run (store : List RoomDoc) (w : World) : List Event → World
  | [] => w
  | e :: es => run store (step store w e).1 es

/-- The check that a sequence of events can occur, given the connections that are open and
those that were closed: an identifier is connected once, and every other event of a
connection comes while it is open. -/
def wellFormed (opened closed : List SocketId) : List Event → Bool
  | [] => true
  | .connection id :: es =>
    !(opened.contains id) && !(closed.contains id) && wellFormed (id :: opened) closed es
  | .disconnect id :: es =>
    opened.contains id && wellFormed (opened.filter (fun c => c != id)) (id :: closed) es
  | .logout id :: es => opened.contains id && wellFormed opened closed es
  | .joinRoom id _ :: es => opened.contains id && wellFormed opened closed es
  | .leaveRoom id _ :: es => opened.contains id && wellFormed opened closed es
  | .roomMessage id _ _ :: es => opened.contains id && wellFormed opened closed es
  | .dm id _ _ :: es => opened.contains id && wellFormed opened closed es
  | .getDmHistory id _ :: es => opened.contains id && wellFormed opened closed es
  | .getUsers id _ :: es => opened.contains id && wellFormed opened closed es

/-- A state the server can be in: the result of a possible sequence of events from the
state at server start. -/
def Reachable (store : List RoomDoc) (w : World) : Prop :=
  ∃ es : List Event, wellFormed [] [] es = true ∧ run store World.empty es = w

/-- The deliveries of a list of emits: who receives which payload. -/
def deliveries (w : World) (emits : List Emit) : List (SocketId × Payload) :=
  emits.flatMap (fun e => (recipients w e.dest).map (fun c => (c, e.payload)))

/-! ## Example states -/

/-- One open connection, nobody joined. -/
def oneOpen : World :=
  run rooms World.empty [.connection 1]

/-- Two open connections; connection 2 has joined `general` as `xyz`. -/
def xyzOnline : World :=
  run rooms World.empty
    [.connection 1, .connection 2, .joinRoom 2 ⟨some "general", some "xyz"⟩]

/-- The events after which connection 2, having joined `general` as `xyz`, has logged out,
while connection 1 is in `general` as `abc`. -/
def loggedOutTrace : List Event :=
  [.connection 1, .connection 2,
   .joinRoom 1 ⟨some "general", some "abc"⟩,
   .joinRoom 2 ⟨some "general", some "xyz"⟩,
   .logout 2]

/-- The state after `loggedOutTrace`. -/
def loggedOut : World :=
  run rooms World.empty loggedOutTrace

/-- A message store with 21 messages of `general`, sent at times 1 to 21. -/
def busyStore : List Message :=
  (List.range 21).map (fun i => ⟨"abc", none, some "general", "m", i + 1⟩)

/-- One open connection and the 21 messages of `busyStore`. -/
def busyWorld : World :=
  { oneOpen with messages := busyStore }

/-- The events after which connection 1 has joined `general` as `abc` and left it again. -/
def leftRoomTrace : List Event :=
  [.connection 1,
   .joinRoom 1 ⟨some "general", some "abc"⟩,
   .leaveRoom 1 ⟨some "general", some "abc"⟩]

/-- The state after `leftRoomTrace`. -/
def leftRoom : World :=
  run rooms World.empty leftRoomTrace

/-- The events after which connections 1 and 2 have both joined `general` as `abc`,
connection 2 last. -/
def twoLoginsTrace : List Event :=
  [.connection 1, .connection 2,
   .joinRoom 1 ⟨some "general", some "abc"⟩,
   .joinRoom 2 ⟨some "general", some "abc"⟩]

/-- The state after `twoLoginsTrace`. -/
def twoLogins : World :=
  run rooms World.empty twoLoginsTrace

/-! ## The handshake -/

/-- The payload `decoded.user` of a verified token (server.js:91-97). -/
structure Identity where
  username : String
  role : String
deriving DecidableEq, Repr

/-- A connection as its handlers see it: `socket.id` and the `socket.user` attached by the
middleware. -/
structure Socket where
  id : SocketId
  user : Identity
deriving DecidableEq, Repr

/-- The middleware `io.use` (server.js:225-235). The argument is the outcome of
`jwt.verify` on the handshake token: `none` when the token is missing or invalid. -/
def authMiddleware (verified : Option Identity) : Except String Identity :=
  match verified with
  | none => .error "Authentication error"
  | some user => .ok user

/-- The handshake of a new connection: the middleware, then the `connection` callback for
an admitted connection. The result is the new state and the admitted socket, if any. -/
def handshake (w : World) (id : SocketId) (verified : Option Identity) :
    World × Option Socket :=
  match authMiddleware verified with
  | .ok user => ((connection w id).1, some ⟨id, user⟩)
  | .error _ => (w, none)

/-- The `join-room` handler as registered on an admitted socket: it reads `socket.id` and
the payload, never `socket.user`. -/
def onJoinRoom (store : List RoomDoc) (w : World) (socket : Socket) (p : JoinRoomData) :
    World × List Emit :=
  joinRoom store w socket.id p

/-! ## Events that keep the index consistent -/

/-- The events under which the index stays consistent with the Sessions: a join-room of a
connection whose Session, if it has one, already carries the username of the payload, and a
disconnect of a connection that has no Session or whose Session has a room; every other
event. -/
def consistentEvent (w : World) : Event → Bool
  | .joinRoom id p =>
    match getSession w.userSockets id with
    | some u => u.username == p.username
    | none => true
  | .disconnect id =>
    match getSession w.userSockets id with
    | some u => truthy u.room
    | none => true
  | _ => true

/-- The check that every event of a sequence is a `consistentEvent` in the state it meets. -/
def consistentRun (store : List RoomDoc) (w : World) : List Event → Bool
  | [] => true
  | e :: es => consistentEvent w e && consistentRun store (step store w e).1 es

/-- The index is consistent: every entry `usernameToSocket[U] = C` points to a connection
that has a Session, whose username is `U`. -/
def IndexLive (w : World) : Prop :=
  ∀ (U : String) (C : SocketId), ownEntry w.usernameToSocket U = some C →
    ∃ s, getSession w.userSockets C = some s ∧ s.username = some U

/-- Two open connections, nobody joined. -/
def twoOpen : World :=
  run rooms World.empty [.connection 1, .connection 2]

/-- The events after which connection 1 has joined `general`, logged out, and joined
`private`. -/
def rejoinTrace : List Event :=
  [.connection 1,
   .joinRoom 1 ⟨some "general", some "abc"⟩,
   .logout 1,
   .joinRoom 1 ⟨some "private", some "abc"⟩]

/-- The state after `rejoinTrace`. -/
def rejoined : World :=
  run rooms World.empty rejoinTrace

/-- The events after which connection 1 has joined `general` as `abc` and then as `xyz`. -/
def renameTrace : List Event :=
  [.connection 1,
   .joinRoom 1 ⟨some "general", some "abc"⟩,
   .joinRoom 1 ⟨some "general", some "xyz"⟩]

/-- The state after `renameTrace`. -/
def renamed : World :=
  run rooms World.empty renameTrace

/-! ## Lemmas on dictionaries -/

theorem Dict.get_set_self {κ ν : Type} [DecidableEq κ] (m : Dict κ ν) (k : κ) (v : ν) :
    (m.set k v).get k = some v := by
  induction m with
  | nil => simp [Dict.set, Dict.get]
  | cons e m ih =>
    by_cases h : e.1 = k
    · simp [Dict.set, Dict.get, h]
    · simp [Dict.set, Dict.get, h, ih]

theorem Dict.get_set_of_ne {κ ν : Type} [DecidableEq κ] (m : Dict κ ν) (k k' : κ) (v : ν)
    (hk : k' ≠ k) : (m.set k v).get k' = m.get k' := by
  induction m with
  | nil => simp [Dict.set, Dict.get, hk.symm]
  | cons e m ih =>
    by_cases h : e.1 = k
    · have h' : e.1 ≠ k' := fun c => hk (c ▸ h)
      simp [Dict.set, Dict.get, h, h', hk.symm]
    · by_cases h' : e.1 = k'
      · simp [Dict.set, Dict.get, h, h', hk]
      · simp [Dict.set, Dict.get, h, h', ih]

theorem Dict.get_delete_self {κ ν : Type} [DecidableEq κ] (m : Dict κ ν) (k : κ) :
    (m.delete k).get k = none := by
  induction m with
  | nil => simp [Dict.delete, Dict.get]
  | cons e m ih =>
    by_cases h : e.1 = k
    · simp [Dict.delete, h, ih]
    · simp [Dict.delete, Dict.get, h, ih]

theorem Dict.get_delete_of_ne {κ ν : Type} [DecidableEq κ] (m : Dict κ ν) (k k' : κ)
    (hk : k' ≠ k) : (m.delete k).get k' = m.get k' := by
  induction m with
  | nil => simp [Dict.delete, Dict.get]
  | cons e m ih =>
    by_cases h : e.1 = k
    · have h' : e.1 ≠ k' := fun c => hk (c ▸ h)
      simp [Dict.delete, Dict.get, h, h', ih, hk.symm]
    · by_cases h' : e.1 = k'
      · simp [Dict.delete, Dict.get, h, h', hk]
      · simp [Dict.delete, Dict.get, h, h', ih]

theorem Dict.delete_of_get_none {κ ν : Type} [DecidableEq κ] (m : Dict κ ν) (k : κ)
    (hk : m.get k = none) : m.delete k = m := by
  induction m with
  | nil => simp [Dict.delete]
  | cons e m ih =>
    by_cases h : e.1 = k
    · simp [Dict.get, h] at hk
    · simp only [Dict.get, h, if_false] at hk
      simp [Dict.delete, h, ih hk]

/-! ## join-room -/

theorem findOne_some (store : List RoomDoc) (R : String) :
    Room.findOne store (some R) = store.find? (fun d => d.name == R) := by
  unfold Room.findOne
  congr 1

theorem includes_some (l : List String) (U : String) : includes l (some U) = true ↔ U ∈ l := by
  induction l with
  | nil => simp [includes]
  | cons a l ih =>
    simp only [includes, List.any_cons, Bool.or_eq_true, List.mem_cons] at ih ⊢
    rw [ih]
    constructor
    · rintro (h | h)
      · left; exact (by simpa using h : a = U).symm
      · exact Or.inr h
    · rintro (h | h)
      · left; simp [h]
      · exact Or.inr h

/-- C1. The join-room handler for room name `R` and username `U` succeeds (emits
join-room-success to the requester and sets its Session room to `R`) exactly when the store
has a room named `R` whose allowedUsers list contains `U`; in every other case the state,
hence both registry maps, is unchanged, no room-users event is emitted, and the only event
emitted is one join-room-error to the requesting connection. -/
theorem join_room_succeeds_iff (store : List RoomDoc) (w : World) (id : SocketId)
    (R U : String) :
    ((⟨.socket id, .joinRoomSuccess (some R)⟩ ∈ (joinRoom store w id ⟨some R, some U⟩).2 ∧
        sessionRoom (joinRoom store w id ⟨some R, some U⟩).1.userSockets id = some R) ↔
      ∃ d, store.find? (fun d => d.name == R) = some d ∧ U ∈ d.allowedUsers) ∧
    ((¬ ∃ d, store.find? (fun d => d.name == R) = some d ∧ U ∈ d.allowedUsers) →
      (joinRoom store w id ⟨some R, some U⟩).1.userSockets = w.userSockets ∧
      (joinRoom store w id ⟨some R, some U⟩).1.usernameToSocket = w.usernameToSocket ∧
      (joinRoom store w id ⟨some R, some U⟩).1 = w ∧
      (∀ e ∈ (joinRoom store w id ⟨some R, some U⟩).2, ∀ us, e.payload ≠ .roomUsers us) ∧
      ∃ msg, (joinRoom store w id ⟨some R, some U⟩).2 = [⟨.socket id, .joinRoomError msg⟩]) := by
  unfold joinRoom
  simp only [findOne_some]
  cases hf : store.find? (fun d => d.name == R) with
  | none => simp
  | some d =>
    by_cases hU : U ∈ d.allowedUsers
    · have hi : includes d.allowedUsers (some U) = true := (includes_some _ _).2 hU
      simp [hi, hU, sessionRoom, getSession, setSession, Dict.get_set_self]
    · have hi : includes d.allowedUsers (some U) = false := by
        rw [← Bool.not_eq_true, includes_some]; exact hU
      simp [hi, hU]

/-- Witness of C1: `xyz` is not on the allow-list of `private`; the join is refused with
one join-room-error and the state is unchanged. -/
theorem join_room_succeeds_iff_witness :
    (¬ ∃ d, rooms.find? (fun d => d.name == "private") = some d ∧ "xyz" ∈ d.allowedUsers) ∧
    (joinRoom rooms oneOpen 1 ⟨some "private", some "xyz"⟩).1 = oneOpen ∧
    ∃ msg, (joinRoom rooms oneOpen 1 ⟨some "private", some "xyz"⟩).2 =
      [⟨.socket 1, .joinRoomError msg⟩] :=
  have hno : ¬ ∃ d, rooms.find? (fun d => d.name == "private") = some d ∧
      "xyz" ∈ d.allowedUsers := by
    rintro ⟨d, hd, hU⟩
    have hfind : rooms.find? (fun d => d.name == "private") =
        some ⟨"private", ["admin", "abc"]⟩ := by decide
    rw [hfind] at hd
    cases hd
    revert hU
    decide
  ⟨hno, ((join_room_succeeds_iff rooms oneOpen 1 "private" "xyz").2 hno).2.2.1,
    ((join_room_succeeds_iff rooms oneOpen 1 "private" "xyz").2 hno).2.2.2.2⟩

/-! ## room-message and dm -/

/-- C2. When the Session room of the sending connection (`undefined` when it has no Session
or no room) differs from the room of the payload, the room-message handler leaves the whole
state, the message store included, unchanged and emits no event. -/
theorem room_message_stale_dropped (w : World) (id : SocketId) (data : RoomMessageData)
    (now : Nat) (h : sessionRoom w.userSockets id ≠ data.room) :
    roomMessage w id data now = (w, []) := by
  simp [roomMessage, h]

/-- Witness of C2: connection 2 is in `general` and sends to `private`; connection 1 has no
Session and sends to `general`. -/
theorem room_message_stale_dropped_witness :
    (sessionRoom xyzOnline.userSockets 2 ≠ some "private" ∧
      roomMessage xyzOnline 2 ⟨some "private", some "hi", some "xyz"⟩ 5 = (xyzOnline, [])) ∧
    (getSession xyzOnline.userSockets 1 = none ∧
      roomMessage xyzOnline 1 ⟨some "general", some "hi", some "abc"⟩ 5 = (xyzOnline, [])) :=
  ⟨⟨by decide,
     room_message_stale_dropped xyzOnline 2 ⟨some "private", some "hi", some "xyz"⟩ 5
       (by decide)⟩,
   ⟨by decide,
     room_message_stale_dropped xyzOnline 1 ⟨some "general", some "hi", some "abc"⟩ 5
       (by decide)⟩⟩

/-- A dm to a username with no own entry in `usernameToSocket`, and whose name is not a
property of `Object.prototype`, writes nothing and emits one dm-error to the sender. -/
theorem dm_offline_plain (w : World) (id : SocketId) (data : DmData) (now : Nat)
    (h : ownEntry w.usernameToSocket (propKey data.to_) = none)
    (hp : propKey data.to_ ∉ protoKeys) :
    dm w id data now =
      (w, [⟨.socket id, .dmError ("User " ++ propKey data.to_ ++ " is not online.")⟩]) := by
  simp [dm, getIndex, h, hp]

/-- C3 (failing input). Nobody is registered under `constructor`, yet a dm to `constructor`
is stored and echoed to the sender as a dm, and no dm-error is emitted: the read
`usernameToSocket[data.to]` finds the property inherited from `Object.prototype`. -/
theorem dm_inherited_key_persists :
    ownEntry oneOpen.usernameToSocket "constructor" = none ∧
    dm oneOpen 1 ⟨some "constructor", some "abc", some "hi"⟩ 7 =
      ({ oneOpen with messages := [⟨"abc", some "constructor", none, "hi", 7⟩] },
       [⟨.channel (.inherited "constructor"), .dm ⟨some "constructor", some "abc", some "hi"⟩⟩,
        ⟨.socket 1, .dm ⟨some "constructor", some "abc", some "hi"⟩⟩]) := by
  decide

/-- C4 (counterexample). The target `xyz` has an entry in `usernameToSocket`, but a dm whose
text is empty or absent is rejected by the schema: nothing is stored and no dm is emitted
(the uncaught rejection ends the process). -/
theorem dm_online_invalid_text :
    ownEntry xyzOnline.usernameToSocket "xyz" = some 2 ∧
    dm xyzOnline 1 ⟨some "xyz", some "abc", some ""⟩ 7 = (processExit xyzOnline, []) ∧
    dm xyzOnline 1 ⟨some "xyz", some "abc", none⟩ 7 = (processExit xyzOnline, []) ∧
    (processExit xyzOnline).messages = xyzOnline.messages := by
  decide

/-- C4 (amended). For a dm payload whose `from` and `msg` are non-empty strings and whose
target has an entry in `usernameToSocket`, the dm handler appends exactly one message with
that from, to and text and no room to the store, changes nothing else, and emits exactly two
dm events with the payload it received: to the connection the index gives, then to the
sender. -/
theorem dm_online (w : World) (id t : SocketId) (to_ : Field) (f m : String) (now : Nat)
    (hf : f ≠ "") (hm : m ≠ "")
    (ht : ownEntry w.usernameToSocket (propKey to_) = some t) :
    dm w id ⟨to_, some f, some m⟩ now =
      ({ w with messages := w.messages ++ [⟨f, to_, none, m, now⟩] },
       [⟨.channel (.sid t), .dm ⟨to_, some f, some m⟩⟩,
        ⟨.socket id, .dm ⟨to_, some f, some m⟩⟩]) := by
  simp [dm, getIndex, ht, Message.create, required, hf, hm]

/-- Witness of C4 (amended): `abc` on connection 1 sends `hi` to `xyz`, online on 2. -/
theorem dm_online_witness :
    "abc" ≠ "" ∧ "hi" ≠ "" ∧ ownEntry xyzOnline.usernameToSocket "xyz" = some 2 ∧
    dm xyzOnline 1 ⟨some "xyz", some "abc", some "hi"⟩ 7 =
      ({ xyzOnline with messages := xyzOnline.messages ++ [⟨"abc", some "xyz", none, "hi", 7⟩] },
       [⟨.channel (.sid 2), .dm ⟨some "xyz", some "abc", some "hi"⟩⟩,
        ⟨.socket 1, .dm ⟨some "xyz", some "abc", some "hi"⟩⟩]) :=
  ⟨by decide, by decide, by decide,
    dm_online xyzOnline 1 2 (some "xyz") "abc" "hi" 7 (by decide) (by decide) (by decide)⟩

/-! ## Delivery of room messages -/

/-- C5 (failing input). After connection 2 has joined `general` and logged out, it has no
Session, but it is still subscribed to `general`: an accepted room-message of connection 1
for `general` is delivered to connections 1 and 2. -/
theorem room_message_reaches_logged_out :
    wellFormed [] [] loggedOutTrace = true ∧
    getSession loggedOut.userSockets 2 = none ∧
    (roomMessage loggedOut 1 ⟨some "general", some "hi", some "abc"⟩ 5).2 =
      [⟨.room (some "general"), .roomMessage ⟨some "general", some "hi", some "abc"⟩⟩] ∧
    deliveries (roomMessage loggedOut 1 ⟨some "general", some "hi", some "abc"⟩ 5).1
        (roomMessage loggedOut 1 ⟨some "general", some "hi", some "abc"⟩ 5).2 =
      [(1, .roomMessage ⟨some "general", some "hi", some "abc"⟩),
       (2, .roomMessage ⟨some "general", some "hi", some "abc"⟩)] := by
  decide

/-! ## History -/

theorem sortLimit_length (l : List Message) : (sortLimit l).length ≤ 20 := by
  simp [sortLimit, List.length_take]

theorem sortLimit_sorted (l : List Message) :
    (sortLimit l).Sorted (fun a b => a.timestamp ≤ b.timestamp) := by
  haveI : IsTotal Message (fun a b => a.timestamp ≤ b.timestamp) :=
    ⟨fun a b => Nat.le_total a.timestamp b.timestamp⟩
  haveI : IsTrans Message (fun a b => a.timestamp ≤ b.timestamp) :=
    ⟨fun _ _ _ h₁ h₂ => Nat.le_trans h₁ h₂⟩
  exact (List.sorted_insertionSort _ l).sublist (List.take_sublist _ _)

theorem mem_of_mem_sortLimit {l : List Message} {m : Message} (h : m ∈ sortLimit l) :
    m ∈ l :=
  (List.perm_insertionSort _ l).mem_iff.1 (List.mem_of_mem_take h)

/-- C6. The room-history query of join-room and the query of get-dm-history return at most
20 messages, in non-decreasing order of timestamp; every message of the room history is a
stored message whose room is the requested room, and every message of the DM history is a
stored message whose (from, to) is (user1, user2) or (user2, user1). -/
theorem history_bounded_sorted (store : List Message) (room user1 user2 : Field) :
    ((roomHistory store room).length ≤ 20 ∧
      (roomHistory store room).Sorted (fun a b => a.timestamp ≤ b.timestamp) ∧
      ∀ m ∈ roomHistory store room, m ∈ store ∧ m.room = room) ∧
    ((dmHistory store user1 user2).length ≤ 20 ∧
      (dmHistory store user1 user2).Sorted (fun a b => a.timestamp ≤ b.timestamp) ∧
      ∀ m ∈ dmHistory store user1 user2, m ∈ store ∧
        ((some m.from_ = user1 ∧ m.to_ = user2) ∨ (some m.from_ = user2 ∧ m.to_ = user1))) := by
  refine ⟨⟨sortLimit_length _, sortLimit_sorted _, ?_⟩, ⟨sortLimit_length _, sortLimit_sorted _, ?_⟩⟩
  · intro m hm
    have := mem_of_mem_sortLimit hm
    simpa [List.mem_filter] using this
  · intro m hm
    have := mem_of_mem_sortLimit hm
    simpa [List.mem_filter] using this

/-- C7 (failing input). With 21 messages of `general` sent at times 1 to 21, the room-history
event of a successful join carries the messages of times 1 to 20: the 20 oldest, without the
newest message. -/
theorem room_history_is_oldest_twenty :
    (joinRoom rooms busyWorld 1 ⟨some "general", some "abc"⟩).2 =
      [⟨.socket 1, .joinRoomSuccess (some "general")⟩,
       ⟨.socket 1, .roomHistory (roomHistory busyStore (some "general"))⟩,
       ⟨.room (some "general"), .roomUsers [some "abc"]⟩] ∧
    (roomHistory busyStore (some "general")).map (fun m => m.timestamp) =
      [1, 2, 3, 4, 5, 6, 7, 8, 9, 10, 11, 12, 13, 14, 15, 16, 17, 18, 19, 20] ∧
    (⟨"abc", none, some "general", "m", 21⟩ : Message) ∈ busyStore ∧
    (⟨"abc", none, some "general", "m", 21⟩ : Message) ∉ roomHistory busyStore (some "general") := by
  decide

/-! ## Cleanup: logout and disconnect -/

/-- C8 (failing input). Connection 1 joins `general` as `abc`, leaves the room and
disconnects: its Session is removed, but `usernameToSocket` still maps `abc` to the closed
connection 1, because the disconnect handler deletes the entry only when the Session has a
room. -/
theorem disconnect_after_leave_keeps_entry :
    wellFormed [] [] (leftRoomTrace ++ [.disconnect 1]) = true ∧
    getSession leftRoom.userSockets 1 = some ⟨some "abc", none⟩ ∧
    ownEntry leftRoom.usernameToSocket "abc" = some 1 ∧
    getSession (disconnect leftRoom 1).1.userSockets 1 = none ∧
    ownEntry (disconnect leftRoom 1).1.usernameToSocket "abc" = some 1 ∧
    1 ∉ (disconnect leftRoom 1).1.connected := by
  decide

/-- C9 (counterexample). Connections 1 and 2 have both joined as `abc`, so the index maps
`abc` to connection 2; logout of connection 1, and likewise its disconnect, removes the
entry of `abc` although it points to connection 2. -/
theorem cleanup_removes_newer_entry :
    wellFormed [] [] twoLoginsTrace = true ∧
    getSession twoLogins.userSockets 1 = some ⟨some "abc", some "general"⟩ ∧
    ownEntry twoLogins.usernameToSocket "abc" = some 2 ∧
    ownEntry (logout twoLogins 1).1.usernameToSocket "abc" = none ∧
    ownEntry (disconnect twoLogins 1).1.usernameToSocket "abc" = none := by
  decide

/-- C9 (amended). When connection `id` has a Session with username `U`, logout removes the
index entry of `U` whichever connection it points to, and leaves the entry of every other
username unchanged; disconnect does the same when the Session has a current room. -/
theorem cleanup_deletes_index_entry (w : World) (id : SocketId) (u : Session)
    (h : getSession w.userSockets id = some u) :
    (ownEntry (logout w id).1.usernameToSocket (propKey u.username) = none ∧
      ∀ k, k ≠ propKey u.username →
        ownEntry (logout w id).1.usernameToSocket k = ownEntry w.usernameToSocket k) ∧
    (truthy u.room = true →
      ownEntry (disconnect w id).1.usernameToSocket (propKey u.username) = none ∧
      ∀ k, k ≠ propKey u.username →
        ownEntry (disconnect w id).1.usernameToSocket k = ownEntry w.usernameToSocket k) := by
  refine ⟨?_, ?_⟩
  · simp only [logout, h, ownEntry, deleteIndex]
    exact ⟨Dict.get_delete_self _ _, fun k hk => Dict.get_delete_of_ne _ _ _ hk⟩
  · intro hr
    simp only [disconnect, h, hr, if_true, ownEntry, deleteIndex]
    exact ⟨Dict.get_delete_self _ _, fun k hk => Dict.get_delete_of_ne _ _ _ hk⟩

/-- Witness of C9 (amended): connection 1 of `twoLogins`, whose Session is `abc` in
`general`. -/
theorem cleanup_deletes_index_entry_witness :
    getSession twoLogins.userSockets 1 = some ⟨some "abc", some "general"⟩ ∧
    ownEntry (logout twoLogins 1).1.usernameToSocket "abc" = none ∧
    ownEntry (disconnect twoLogins 1).1.usernameToSocket "abc" = none :=
  ⟨by decide,
    (cleanup_deletes_index_entry twoLogins 1 ⟨some "abc", some "general"⟩ (by decide)).1.1,
    ((cleanup_deletes_index_entry twoLogins 1 ⟨some "abc", some "general"⟩ (by decide)).2
      (by decide)).1⟩

/-! ## leave-room -/

/-- C10. When the connection has no Session, or its Session room differs from the room of
the payload, the leave-room handler changes nothing (neither registry map, nor the
subscriptions of the connection) and emits no event. -/
theorem leave_room_noop (w : World) (id : SocketId) (p : LeaveRoomData)
    (h : getSession w.userSockets id = none ∨
      ∃ u, getSession w.userSockets id = some u ∧ u.room ≠ p.room) :
    leaveRoom w id p = (w, []) ∧
    (leaveRoom w id p).1.userSockets = w.userSockets ∧
    (leaveRoom w id p).1.usernameToSocket = w.usernameToSocket ∧
    subscriptions (leaveRoom w id p).1 id = subscriptions w id := by
  have key : leaveRoom w id p = (w, []) := by
    rcases h with h | ⟨u, h, hne⟩
    · simp [leaveRoom, h]
    · simp [leaveRoom, h, hne]
  simp [key]

/-- Witness of C10: connection 2 is in `general` and asks to leave `private`. -/
theorem leave_room_noop_witness :
    (∃ u, getSession xyzOnline.userSockets 2 = some u ∧ u.room ≠ some "private") ∧
    leaveRoom xyzOnline 2 ⟨some "private", some "xyz"⟩ = (xyzOnline, []) :=
  ⟨⟨⟨some "xyz", some "general"⟩, by decide, by decide⟩,
    (leave_room_noop xyzOnline 2 ⟨some "private", some "xyz"⟩
      (Or.inr ⟨⟨some "xyz", some "general"⟩, by decide, by decide⟩)).1⟩

/-! ## Membership snapshots -/

theorem getUsersInRoom_nil (R : Field) : getUsersInRoom [] R = [] := rfl

theorem getUsersInRoom_cons (e : SocketId × Session) (us : Dict SocketId Session) (R : Field) :
    getUsersInRoom (e :: us) R =
      if e.2.room = R then e.2.username :: getUsersInRoom us R else getUsersInRoom us R := by
  by_cases h : e.2.room = R <;> simp [getUsersInRoom, List.filter_cons, h]

theorem mem_getUsersInRoom {us : Dict SocketId Session} {R n : Field} :
    n ∈ getUsersInRoom us R ↔ ∃ e ∈ us, e.2.room = R ∧ e.2.username = n := by
  induction us with
  | nil => simp [getUsersInRoom_nil]
  | cons e us ih =>
    rw [getUsersInRoom_cons]
    by_cases h : e.2.room = R
    · simp only [h, if_true, List.mem_cons, ih]
      constructor
      · rintro (rfl | ⟨e', he', hr, hn⟩)
        · exact ⟨e, Or.inl rfl, h, rfl⟩
        · exact ⟨e', Or.inr he', hr, hn⟩
      · rintro ⟨e', he' | he', hr, hn⟩
        · subst he'; exact Or.inl hn.symm
        · exact Or.inr ⟨e', he', hr, hn⟩
    · simp only [h, if_false, List.mem_cons, ih]
      constructor
      · rintro ⟨e', he', hr, hn⟩
        exact ⟨e', Or.inr he', hr, hn⟩
      · rintro ⟨e', he' | he', hr, hn⟩
        · subst he'; exact absurd hr h
        · exact ⟨e', he', hr, hn⟩

theorem Dict.get_eq_none_of_not_mem_keys {κ ν : Type} [DecidableEq κ] (m : Dict κ ν) (k : κ)
    (h : k ∉ m.map Prod.fst) : m.get k = none := by
  induction m with
  | nil => rfl
  | cons e m ih =>
    simp only [List.map_cons, List.mem_cons, not_or] at h
    have h1 : e.1 ≠ k := fun c => h.1 c.symm
    simp [Dict.get, h1, ih h.2]

theorem Dict.mem_of_get_eq_some {κ ν : Type} [DecidableEq κ] (m : Dict κ ν) (k : κ) (v : ν)
    (h : m.get k = some v) : (k, v) ∈ m := by
  induction m with
  | nil => simp [Dict.get] at h
  | cons e m ih =>
    by_cases h1 : e.1 = k
    · simp only [Dict.get, h1, if_true, Option.some.injEq] at h
      exact List.mem_cons.2 (Or.inl (by rw [← h1, ← h]))
    · simp only [Dict.get, h1, if_false] at h
      exact List.mem_cons_of_mem _ (ih h)

/-- With one property per key, the members of a room after the room of `id` is cleared are
the members after the Session of `id` is deleted. -/
theorem getUsersInRoom_set_none (us : Dict SocketId Session) (id : SocketId) (u : Session)
    (R : String) (hnd : (us.map Prod.fst).Nodup) (h : us.get id = some u) :
    getUsersInRoom (us.set id { u with room := none }) (some R) =
      getUsersInRoom (us.delete id) (some R) := by
  induction us with
  | nil => simp [Dict.get] at h
  | cons e us ih =>
    simp only [List.map_cons, List.nodup_cons] at hnd
    by_cases h1 : e.1 = id
    · have hno : Dict.get us id = none := Dict.get_eq_none_of_not_mem_keys _ _ (h1 ▸ hnd.1)
      simp [Dict.set, Dict.delete, h1, getUsersInRoom_cons, Dict.delete_of_get_none _ _ hno]
    · simp only [Dict.get, h1, if_false] at h
      simp [Dict.set, Dict.delete, h1, getUsersInRoom_cons, ih hnd.2 h]

/-- With one property per key, and no other Session of the room under the username of `id`,
filtering that username out of the members gives the members after the Session of `id` is
deleted. -/
theorem filter_getUsersInRoom_eq_delete (us : Dict SocketId Session) (id : SocketId)
    (u : Session) (R : Field) (hnd : (us.map Prod.fst).Nodup) (h : us.get id = some u)
    (hothers : ∀ e ∈ us, e.1 ≠ id → e.2.room = R → e.2.username ≠ u.username) :
    (getUsersInRoom us R).filter (fun n => n != u.username) =
      getUsersInRoom (us.delete id) R := by
  induction us with
  | nil => simp [Dict.get] at h
  | cons e us ih =>
    simp only [List.map_cons, List.nodup_cons] at hnd
    by_cases h1 : e.1 = id
    · have hno : Dict.get us id = none := Dict.get_eq_none_of_not_mem_keys _ _ (h1 ▸ hnd.1)
      have he : e.2 = u := by simpa [Dict.get, h1] using h
      have hrest : (getUsersInRoom us R).filter (fun n => n != u.username) =
          getUsersInRoom us R := by
        rw [List.filter_eq_self]
        intro n hn
        obtain ⟨e', he', hr, hn'⟩ := mem_getUsersInRoom.1 hn
        have hne : e'.1 ≠ id := by
          intro c
          exact hnd.1 (h1 ▸ c ▸ List.mem_map_of_mem Prod.fst he')
        have := hothers e' (List.mem_cons_of_mem _ he') hne hr
        simpa [hn'] using this
      rw [getUsersInRoom_cons]
      by_cases hr : e.2.room = R
      · rw [he] at hr
        simp [hr, he, Dict.delete, h1, Dict.delete_of_get_none _ _ hno, hrest]
      · simp [hr, Dict.delete, h1, Dict.delete_of_get_none _ _ hno, hrest]
    · simp only [Dict.get, h1, if_false] at h
      have ih' := ih hnd.2 h (fun e' he' => hothers e' (List.mem_cons_of_mem _ he'))
      rw [getUsersInRoom_cons]
      by_cases hr : e.2.room = R
      · have hne := hothers e (List.mem_cons_self _ _) h1 hr
        simp [hr, Dict.delete, h1, getUsersInRoom_cons, ih', hne]
      · simp [hr, Dict.delete, h1, getUsersInRoom_cons, ih']

/-! ## leave-room, logout and disconnect: the snapshot -/

/-- C11 (counterexample). Connections 1 and 2 are both in `general` as `abc`. When connection
1 leaves, the members of `general` computed after the removal are `[abc]` (connection 2),
but the room-users snapshot that is broadcast is empty. -/
theorem leave_room_snapshot_drops_namesake :
    wellFormed [] [] twoLoginsTrace = true ∧
    sessionRoom twoLogins.userSockets 1 = some "general" ∧
    getUsersInRoom (leaveRoom twoLogins 1 ⟨some "general", some "abc"⟩).1.userSockets
      (some "general") = [some "abc"] ∧
    (leaveRoom twoLogins 1 ⟨some "general", some "abc"⟩).2 =
      [⟨.room (some "general"), .roomUsers []⟩] := by
  decide

/-- C11 (amended). When the Session of connection `id` has room `R`, leave-room with payload
room `R` clears the room of that Session and keeps its username, leaves the index alone, and
emits one room-users event to the channel of `R`, which `id` has left. Its snapshot is the
membership of `R` computed after the removal with the payload username filtered out: it
does not contain the payload username, and it equals the membership after the removal when
no remaining member carries the payload username. With one Session per connection, that
membership is the one of the registry without the Session of `id`. -/
theorem leave_room_snapshot (w : World) (id : SocketId) (u : Session) (R : String)
    (username : Field) (h : getSession w.userSockets id = some u) (hR : u.room = some R) :
    getSession (leaveRoom w id ⟨some R, username⟩).1.userSockets id =
      some ⟨u.username, none⟩ ∧
    (leaveRoom w id ⟨some R, username⟩).1.usernameToSocket = w.usernameToSocket ∧
    (leaveRoom w id ⟨some R, username⟩).2 =
      [⟨.room (some R), .roomUsers
        ((getUsersInRoom (leaveRoom w id ⟨some R, username⟩).1.userSockets (some R)).filter
          (fun n => n != username))⟩] ∧
    id ∉ recipients (leaveRoom w id ⟨some R, username⟩).1 (.room (some R)) ∧
    username ∉ (getUsersInRoom (leaveRoom w id ⟨some R, username⟩).1.userSockets
      (some R)).filter (fun n => n != username) ∧
    (username ∉ getUsersInRoom (leaveRoom w id ⟨some R, username⟩).1.userSockets (some R) →
      (getUsersInRoom (leaveRoom w id ⟨some R, username⟩).1.userSockets (some R)).filter
          (fun n => n != username) =
        getUsersInRoom (leaveRoom w id ⟨some R, username⟩).1.userSockets (some R)) ∧
    ((w.userSockets.map Prod.fst).Nodup →
      getUsersInRoom (leaveRoom w id ⟨some R, username⟩).1.userSockets (some R) =
        getUsersInRoom (deleteSession w.userSockets id) (some R)) := by
  have hl : leaveRoom w id ⟨some R, username⟩ =
      ({ w with
          adapter := adapterLeave w.adapter id (some R)
          userSockets := setSession w.userSockets id { u with room := none } },
       [⟨.room (some R), .roomUsers
         ((getUsersInRoom (setSession w.userSockets id { u with room := none })
           (some R)).filter (fun n => n != username))⟩]) := by
    simp [leaveRoom, h, hR]
  rw [hl]
  refine ⟨?_, rfl, rfl, ?_, ?_, ?_, ?_⟩
  · simp [getSession, setSession, Dict.get_set_self]
  · simp [recipients, subscribers, adapterLeave, List.mem_filter]
  · simp [List.mem_filter]
  · intro hn
    rw [List.filter_eq_self]
    intro n hmem
    have : n ≠ username := fun c => hn (c ▸ hmem)
    simpa using this
  · intro hnd
    exact getUsersInRoom_set_none w.userSockets id u R hnd h

/-- Witness of C11 (amended): connection 2 of `xyzOnline` leaves `general`. -/
theorem leave_room_snapshot_witness :
    getSession xyzOnline.userSockets 2 = some ⟨some "xyz", some "general"⟩ ∧
    getSession (leaveRoom xyzOnline 2 ⟨some "general", some "xyz"⟩).1.userSockets 2 =
      some ⟨some "xyz", none⟩ ∧
    (leaveRoom xyzOnline 2 ⟨some "general", some "xyz"⟩).1.usernameToSocket =
      xyzOnline.usernameToSocket :=
  ⟨by decide,
   (leave_room_snapshot xyzOnline 2 ⟨some "xyz", some "general"⟩ "general" (some "xyz")
     (by decide) rfl).1,
   (leave_room_snapshot xyzOnline 2 ⟨some "xyz", some "general"⟩ "general" (some "xyz")
     (by decide) rfl).2.1⟩

/-- C12 (counterexample). Connections 1 and 2 are both in `general` as `abc`. At logout, and
at disconnect, of connection 1 the room-users snapshot is empty, although the membership of
`general` after the removal of its Session still holds `abc` (connection 2). -/
theorem cleanup_snapshot_drops_namesake :
    wellFormed [] [] twoLoginsTrace = true ∧
    (logout twoLogins 1).2 = [⟨.roomExcept (some "general") 1, .roomUsers []⟩] ∧
    getUsersInRoom (logout twoLogins 1).1.userSockets (some "general") = [some "abc"] ∧
    (disconnect twoLogins 1).2 = [⟨.roomExcept (some "general") 1, .roomUsers []⟩] ∧
    getUsersInRoom (disconnect twoLogins 1).1.userSockets (some "general") = [some "abc"] := by
  decide

/-- C12 (amended). When the Session of connection `id` has a non-empty room `R`, logout and
disconnect each emit exactly one room-users event, addressed to the subscribers of `R`
except `id`. Its snapshot is the membership of `R` before the removal with the username of
the Session filtered out: it omits that username and contains the username of every Session
of `R` with another username; with one Session per connection and no other Session of `R`
under that username, it is the membership of `R` after the removal. When the connection has
no Session or no room, neither handler emits an event. -/
theorem cleanup_snapshot (w : World) (id : SocketId) :
    (∀ (u : Session) (R : String), getSession w.userSockets id = some u →
      u.room = some R → R ≠ "" →
      (logout w id).2 = [⟨.roomExcept (some R) id, .roomUsers
        ((getUsersInRoom w.userSockets (some R)).filter (fun n => n != u.username))⟩] ∧
      (disconnect w id).2 = [⟨.roomExcept (some R) id, .roomUsers
        ((getUsersInRoom w.userSockets (some R)).filter (fun n => n != u.username))⟩] ∧
      id ∉ recipients (logout w id).1 (.roomExcept (some R) id) ∧
      id ∉ recipients (disconnect w id).1 (.roomExcept (some R) id) ∧
      u.username ∉ (getUsersInRoom w.userSockets (some R)).filter
        (fun n => n != u.username) ∧
      (∀ e ∈ w.userSockets, e.2.room = some R → e.2.username ≠ u.username →
        e.2.username ∈ (getUsersInRoom w.userSockets (some R)).filter
          (fun n => n != u.username)) ∧
      ((w.userSockets.map Prod.fst).Nodup →
        (∀ e ∈ w.userSockets, e.1 ≠ id → e.2.room = some R →
          e.2.username ≠ u.username) →
        (getUsersInRoom w.userSockets (some R)).filter (fun n => n != u.username) =
            getUsersInRoom (logout w id).1.userSockets (some R) ∧
        (getUsersInRoom w.userSockets (some R)).filter (fun n => n != u.username) =
            getUsersInRoom (disconnect w id).1.userSockets (some R))) ∧
    (truthy (sessionRoom w.userSockets id) = false →
      (logout w id).2 = [] ∧ (disconnect w id).2 = []) := by
  constructor
  · intro u R h hR hne
    have ht' : truthy (some R) = true := by simp [truthy, hne]
    have ht : truthy u.room = true := hR ▸ ht'
    have hlo : logout w id =
        ({ w with
            usernameToSocket := deleteIndex w.usernameToSocket u.username
            userSockets := deleteSession w.userSockets id },
         [⟨.roomExcept (some R) id, .roomUsers
           ((getUsersInRoom w.userSockets (some R)).filter (fun n => n != u.username))⟩]) := by
      simp [logout, h, ht', hR]
    have hdi : disconnect w id =
        ({ w with
            adapter := w.adapter.filter (fun e => e.1 != id)
            connected := w.connected.filter (fun c => c != id)
            usernameToSocket := deleteIndex w.usernameToSocket u.username
            userSockets := deleteSession w.userSockets id },
         [⟨.roomExcept (some R) id, .roomUsers
           ((getUsersInRoom w.userSockets (some R)).filter (fun n => n != u.username))⟩]) := by
      simp [disconnect, h, ht', hR]
    rw [hlo, hdi]
    refine ⟨rfl, rfl, ?_, ?_, ?_, ?_, ?_⟩
    · simp [recipients, List.mem_filter]
    · simp [recipients, List.mem_filter]
    · simp [List.mem_filter]
    · intro e he hr hn
      rw [List.mem_filter]
      exact ⟨mem_getUsersInRoom.2 ⟨e, he, hr, rfl⟩, by simpa using hn⟩
    · intro hnd hothers
      have := filter_getUsersInRoom_eq_delete w.userSockets id u (some R) hnd h hothers
      exact ⟨this, this⟩
  · intro ht
    cases h : getSession w.userSockets id with
    | none => simp [logout, disconnect, h]
    | some u =>
      have : truthy u.room = false := by simpa [sessionRoom, h] using ht
      simp [logout, disconnect, h, this]

/-- Witness of C12 (amended): connection 2 of `xyzOnline`, alone in `general`, logs out or
disconnects; connection 1, which has no Session, emits nothing. -/
theorem cleanup_snapshot_witness :
    getSession xyzOnline.userSockets 2 = some ⟨some "xyz", some "general"⟩ ∧
    (logout xyzOnline 2).2 = [⟨.roomExcept (some "general") 2, .roomUsers []⟩] ∧
    (disconnect xyzOnline 2).2 = [⟨.roomExcept (some "general") 2, .roomUsers []⟩] ∧
    truthy (sessionRoom xyzOnline.userSockets 1) = false ∧
    (logout xyzOnline 1).2 = [] ∧ (disconnect xyzOnline 1).2 = [] :=
  ⟨by decide,
   ((cleanup_snapshot xyzOnline 2).1 ⟨some "xyz", some "general"⟩ "general" (by decide) rfl
     (by decide)).1,
   ((cleanup_snapshot xyzOnline 2).1 ⟨some "xyz", some "general"⟩ "general" (by decide) rfl
     (by decide)).2.1,
   by decide,
   ((cleanup_snapshot xyzOnline 1).2 (by decide)).1,
   ((cleanup_snapshot xyzOnline 1).2 (by decide)).2⟩

/-! ## Idempotence of cleanup -/

theorem Dict.delete_delete {κ ν : Type} [DecidableEq κ] (m : Dict κ ν) (k : κ) :
    (m.delete k).delete k = m.delete k :=
  Dict.delete_of_get_none _ _ (Dict.get_delete_self m k)

/-- C13. Running the logout handler a second time right after the first, and likewise the
disconnect handler, returns the state of the first run unchanged (both registry maps
included) and emits no event. -/
theorem cleanup_idempotent (w : World) (id : SocketId) :
    logout (logout w id).1 id = ((logout w id).1, []) ∧
    disconnect (disconnect w id).1 id = ((disconnect w id).1, []) := by
  constructor
  · cases h : getSession w.userSockets id with
    | none => simp [logout, h]
    | some u =>
      have hg : getSession (deleteSession w.userSockets id) id = none :=
        Dict.get_delete_self _ _
      simp [logout, h, hg]
  · have hg : getSession (deleteSession w.userSockets id) id = none :=
      Dict.get_delete_self _ _
    have hd : deleteSession (deleteSession w.userSockets id) id =
        deleteSession w.userSockets id := Dict.delete_delete _ _
    cases h : getSession w.userSockets id with
    | none => simp [disconnect, h, hg, hd, List.filter_filter]
    | some u =>
      by_cases ht : truthy u.room = true
      · simp [disconnect, h, ht, hg, hd, List.filter_filter]
      · simp [disconnect, h, ht, hg, hd, List.filter_filter]

/-! ## join-room: the events of a successful join -/

theorem getUsersInRoom_eq_nil (us : Dict SocketId Session) (R : Field)
    (h : ∀ e ∈ us, e.2.room ≠ R) : getUsersInRoom us R = [] := by
  induction us with
  | nil => rfl
  | cons e us ih =>
    rw [getUsersInRoom_cons, if_neg (h e (List.mem_cons_self _ _))]
    exact ih (fun e' he' => h e' (List.mem_cons_of_mem _ he'))

theorem getUsersInRoom_set_alone (us : Dict SocketId Session) (id : SocketId) (U R : Field)
    (hnd : (us.map Prod.fst).Nodup) (h : ∀ e ∈ us, e.1 ≠ id → e.2.room ≠ R) :
    getUsersInRoom (us.set id ⟨U, R⟩) R = [U] := by
  induction us with
  | nil => simp [Dict.set, getUsersInRoom_cons, getUsersInRoom_nil]
  | cons e us ih =>
    simp only [List.map_cons, List.nodup_cons] at hnd
    by_cases h1 : e.1 = id
    · have hrest : getUsersInRoom us R = [] := by
        apply getUsersInRoom_eq_nil
        intro e' he'
        apply h e' (List.mem_cons_of_mem _ he')
        intro c
        exact hnd.1 (h1 ▸ c ▸ List.mem_map_of_mem Prod.fst he')
      simp [Dict.set, h1, getUsersInRoom_cons, hrest]
    · have hr : e.2.room ≠ R := h e (List.mem_cons_self _ _) h1
      simp [Dict.set, h1, getUsersInRoom_cons, hr,
        ih hnd.2 (fun e' he' => h e' (List.mem_cons_of_mem _ he'))]

theorem mem_adapterJoin (a : List (SocketId × Field)) (id : SocketId) (room : Field) :
    (id, room) ∈ adapterJoin a id room := by
  unfold adapterJoin
  by_cases h : (id, room) ∈ a <;> simp [h]

/-- C14. A successful join of room `R` under username `U` on an open connection emits, in
this order, join-room-success with room `R` to the connection, room-history to the
connection, and one room-users event to the channel of `R`, whose recipients include the
connection. The room-users payload is the membership of `R` computed after the Session
update; it contains `U`, and it is exactly `[U]` when no other connection has a Session in
`R`. -/
theorem join_room_events (store : List RoomDoc) (w : World) (id : SocketId) (R U : String)
    (d : RoomDoc) (hfind : store.find? (fun d => d.name == R) = some d)
    (hU : U ∈ d.allowedUsers) (hc : id ∈ w.connected) :
    (joinRoom store w id ⟨some R, some U⟩).2 =
      [⟨.socket id, .joinRoomSuccess (some R)⟩,
       ⟨.socket id, .roomHistory (roomHistory w.messages (some R))⟩,
       ⟨.room (some R), .roomUsers
         (getUsersInRoom (joinRoom store w id ⟨some R, some U⟩).1.userSockets (some R))⟩] ∧
    recipients (joinRoom store w id ⟨some R, some U⟩).1 (.socket id) = [id] ∧
    id ∈ recipients (joinRoom store w id ⟨some R, some U⟩).1 (.room (some R)) ∧
    some U ∈ getUsersInRoom (joinRoom store w id ⟨some R, some U⟩).1.userSockets (some R) ∧
    ((w.userSockets.map Prod.fst).Nodup →
      (∀ e ∈ w.userSockets, e.1 ≠ id → e.2.room ≠ some R) →
      getUsersInRoom (joinRoom store w id ⟨some R, some U⟩).1.userSockets (some R) =
        [some U]) := by
  have hi : includes d.allowedUsers (some U) = true := (includes_some _ _).2 hU
  have hj : joinRoom store w id ⟨some R, some U⟩ =
      ({ w with
          adapter := adapterJoin
            (if truthy (sessionRoom w.userSockets id) then
              adapterLeave w.adapter id (sessionRoom w.userSockets id)
            else w.adapter) id (some R)
          userSockets := setSession w.userSockets id ⟨some U, some R⟩
          usernameToSocket := setIndex w.usernameToSocket (some U) id },
       [⟨.socket id, .joinRoomSuccess (some R)⟩,
        ⟨.socket id, .roomHistory (roomHistory w.messages (some R))⟩,
        ⟨.room (some R), .roomUsers
          (getUsersInRoom (setSession w.userSockets id ⟨some U, some R⟩) (some R))⟩]) := by
    simp [joinRoom, findOne_some, hfind, hi]
  rw [hj]
  refine ⟨rfl, ?_, ?_, ?_, ?_⟩
  · simp [recipients, hc]
  · simp only [recipients, subscribers, List.mem_filter, decide_eq_true_eq]
    exact ⟨hc, mem_adapterJoin _ _ _⟩
  · exact mem_getUsersInRoom.2 ⟨(id, ⟨some U, some R⟩),
      Dict.mem_of_get_eq_some _ _ _ (Dict.get_set_self _ _ _), rfl, rfl⟩
  · intro hnd hothers
    exact getUsersInRoom_set_alone w.userSockets id (some U) (some R) hnd hothers

/-- Witness of C14: `abc` joins `general` on the only open connection; the room-users
payload is `[abc]`. -/
theorem join_room_events_witness :
    rooms.find? (fun d => d.name == "general") = some ⟨"general", ["admin", "abc", "xyz"]⟩ ∧
    "abc" ∈ ["admin", "abc", "xyz"] ∧ 1 ∈ oneOpen.connected ∧
    (joinRoom rooms oneOpen 1 ⟨some "general", some "abc"⟩).2 =
      [⟨.socket 1, .joinRoomSuccess (some "general")⟩,
       ⟨.socket 1, .roomHistory (roomHistory oneOpen.messages (some "general"))⟩,
       ⟨.room (some "general"), .roomUsers
         (getUsersInRoom (joinRoom rooms oneOpen 1 ⟨some "general", some "abc"⟩).1.userSockets
           (some "general"))⟩] ∧
    getUsersInRoom (joinRoom rooms oneOpen 1 ⟨some "general", some "abc"⟩).1.userSockets
      (some "general") = [some "abc"] :=
  ⟨by decide, by decide, by decide,
   (join_room_events rooms oneOpen 1 "general" "abc" ⟨"general", ["admin", "abc", "xyz"]⟩
     (by decide) (by decide) (by decide)).1,
   (join_room_events rooms oneOpen 1 "general" "abc" ⟨"general", ["admin", "abc", "xyz"]⟩
     (by decide) (by decide) (by decide)).2.2.2.2 (by decide) (by decide)⟩

/-! ## Persisted messages -/

theorem required_eq_some {v : Field} {s : String} (h : required v = some s) : v = some s := by
  cases v with
  | none => simp [required] at h
  | some x =>
    by_cases hx : x = ""
    · simp [required, hx] at h
    · simp [required, hx] at h
      rw [h]

theorem Message.create_eq_some {store stored : List Message} {doc : MessageInput} {now : Nat}
    (h : Message.create store doc now = some stored) :
    ∃ f t, doc.from_ = some f ∧ doc.text = some t ∧
      stored = store ++ [⟨f, doc.to_, doc.room, t, now⟩] := by
  unfold Message.create at h
  cases hu : required doc.from_ with
  | none => simp [hu] at h
  | some f =>
    cases hm : required doc.text with
    | none => simp [hu, hm] at h
    | some t =>
      simp only [hu, hm, Option.some.injEq] at h
      exact ⟨f, t, required_eq_some hu, required_eq_some hm, h.symm⟩

/-- A record written by the room-message handler has no `to`, and a record written by the
dm handler has no `room`: no stored record has both destinations. -/
theorem persisted_not_both (w : World) (id : SocketId) (rm : RoomMessageData) (d : DmData)
    (now : Nat) :
    (∀ m, (roomMessage w id rm now).1.messages = w.messages ++ [m] → m.to_ = none) ∧
    (∀ m, (dm w id d now).1.messages = w.messages ++ [m] → m.room = none) := by
  constructor
  · intro m hm
    unfold roomMessage at hm
    by_cases hg : sessionRoom w.userSockets id = rm.room
    · simp only [hg, if_true] at hm
      cases hc : Message.create w.messages ⟨rm.user, none, rm.room, rm.msg⟩ now with
      | none => simp [hc, processExit] at hm
      | some stored =>
        obtain ⟨f, t, -, -, hs⟩ := Message.create_eq_some hc
        simp only [hc, hs] at hm
        have := List.append_cancel_left hm
        simp at this
        rw [← this]
    · simp [hg] at hm
  · intro m hm
    unfold dm at hm
    cases hi : getIndex w.usernameToSocket d.to_ with
    | none => simp [hi] at hm
    | some tgt =>
      simp only [hi] at hm
      cases hc : Message.create w.messages ⟨d.from_, d.to_, none, d.msg⟩ now with
      | none => simp [hc, processExit] at hm
      | some stored =>
        obtain ⟨f, t, -, -, hs⟩ := Message.create_eq_some hc
        simp only [hc, hs] at hm
        have := List.append_cancel_left hm
        simp at this
        rw [← this]

/-- C15 (failing input). Connection 1 is open and has no Session; its room-message without
a room field passes the guard (`undefined === undefined`) and a record with neither room
nor to is written to the store. -/
theorem room_message_without_destination :
    wellFormed [] [] [.connection 1, .roomMessage 1 ⟨none, some "hi", some "abc"⟩ 5] = true ∧
    getSession oneOpen.userSockets 1 = none ∧
    roomMessage oneOpen 1 ⟨none, some "hi", some "abc"⟩ 5 =
      ({ oneOpen with messages := [⟨"abc", none, none, "hi", 5⟩] },
       [⟨.room none, .roomMessage ⟨none, some "hi", some "abc"⟩⟩]) := by
  decide

/-- When the store write of a room-message or of a dm is rejected, nothing is stored and no
event is emitted, and the process exits; and whenever a room-message or dm event is emitted,
the message it carries has been appended to the store. -/
theorem rejected_write_effects (w : World) (id : SocketId) (rm : RoomMessageData)
    (d : DmData) (now : Nat) :
    (sessionRoom w.userSockets id = rm.room →
      Message.create w.messages ⟨rm.user, none, rm.room, rm.msg⟩ now = none →
      roomMessage w id rm now = (processExit w, [])) ∧
    (∀ tgt, getIndex w.usernameToSocket d.to_ = some tgt →
      Message.create w.messages ⟨d.from_, d.to_, none, d.msg⟩ now = none →
      dm w id d now = (processExit w, [])) ∧
    (∀ e ∈ (roomMessage w id rm now).2, e.payload = .roomMessage rm ∧
      ∃ f t, rm.user = some f ∧ rm.msg = some t ∧
        (roomMessage w id rm now).1.messages = w.messages ++ [⟨f, none, rm.room, t, now⟩]) ∧
    (∀ e ∈ (dm w id d now).2, ∀ d', e.payload = .dm d' → d' = d ∧
      ∃ f t, d.from_ = some f ∧ d.msg = some t ∧
        (dm w id d now).1.messages = w.messages ++ [⟨f, d.to_, none, t, now⟩]) := by
  refine ⟨?_, ?_, ?_, ?_⟩
  · intro hg h
    simp [roomMessage, hg, h]
  · intro tgt hi h
    simp [dm, hi, h]
  · intro e he
    unfold roomMessage at he ⊢
    by_cases hg : sessionRoom w.userSockets id = rm.room
    · simp only [hg, if_true] at he ⊢
      cases hc : Message.create w.messages ⟨rm.user, none, rm.room, rm.msg⟩ now with
      | none => simp [hc] at he
      | some stored =>
        obtain ⟨f, t, hf, ht, hs⟩ := Message.create_eq_some hc
        simp only [hc, List.mem_singleton] at he ⊢
        exact ⟨by rw [he], f, t, hf, ht, hs⟩
    · simp [hg] at he
  · intro e he d' hd'
    unfold dm at he ⊢
    cases hi : getIndex w.usernameToSocket d.to_ with
    | none =>
      simp only [hi, List.mem_singleton] at he
      rw [he] at hd'
      simp at hd'
    | some tgt =>
      simp only [hi] at he ⊢
      cases hc : Message.create w.messages ⟨d.from_, d.to_, none, d.msg⟩ now with
      | none => simp [hc] at he
      | some stored =>
        obtain ⟨f, t, hf, ht, hs⟩ := Message.create_eq_some hc
        simp only [hc, List.mem_cons, List.mem_singleton, List.not_mem_nil, or_false] at he ⊢
        refine ⟨?_, f, t, hf, ht, hs⟩
        rcases he with he | he <;> (rw [he] at hd'; simpa using hd'.symm)

/-- C17 (failing input). Connection 2 is in `general` as `xyz`, connection 1 is open. A
room-message of connection 2 without text, and likewise a dm of connection 1 to `xyz`
without text, is rejected by the schema; no event is emitted and nothing is stored, but the
rejection is not caught and the process exits: the Session of connection 2, the index entry
of `xyz` and both connections are lost. -/
theorem rejected_write_ends_process :
    wellFormed [] []
      [.connection 1, .connection 2, .joinRoom 2 ⟨some "general", some "xyz"⟩,
       .roomMessage 2 ⟨some "general", none, some "xyz"⟩ 5] = true ∧
    Message.create xyzOnline.messages ⟨some "xyz", none, some "general", none⟩ 5 = none ∧
    xyzOnline.userSockets = [(2, ⟨some "xyz", some "general"⟩)] ∧
    xyzOnline.usernameToSocket = [("xyz", 2)] ∧
    xyzOnline.connected = [1, 2] ∧
    roomMessage xyzOnline 2 ⟨some "general", none, some "xyz"⟩ 5 = (processExit xyzOnline, []) ∧
    dm xyzOnline 1 ⟨some "xyz", some "abc", none⟩ 5 = (processExit xyzOnline, []) ∧
    (processExit xyzOnline).userSockets = [] ∧
    (processExit xyzOnline).usernameToSocket = [] ∧
    (processExit xyzOnline).connected = [] ∧
    (processExit xyzOnline).messages = xyzOnline.messages := by
  decide

/-! ## The handshake and the identity of a connection -/

/-- C16 (counterexample). Connection 1 is admitted with identity `abc`: afterwards it has no
Session, `abc` has no index entry, and a dm of connection 2 to `abc` is answered with
dm-error. -/
theorem handshake_registers_nothing :
    handshake World.empty 1 (some ⟨"abc", "user"⟩) = (oneOpen, some ⟨1, ⟨"abc", "user"⟩⟩) ∧
    getSession oneOpen.userSockets 1 = none ∧
    ownEntry oneOpen.usernameToSocket "abc" = none ∧
    (handshake oneOpen 2 (some ⟨"xyz", "user"⟩)).1 = twoOpen ∧
    dm twoOpen 2 ⟨some "abc", some "xyz", some "hi"⟩ 5 =
      (twoOpen, [⟨.socket 2, .dmError "User abc is not online."⟩]) := by
  decide

/-- C16 (amended). The handshake of a connection admitted with identity username `U` opens
the connection and leaves both registry maps unchanged: a connection that had no Session has
none afterwards, and when `U` had no index entry (and is not the name of a property of
`Object.prototype`) a dm addressed to `U` is still answered with one dm-error to its
sender. -/
theorem handshake_leaves_registry (w : World) (id : SocketId) (U role : String) :
    (handshake w id (some ⟨U, role⟩)).2 = some ⟨id, ⟨U, role⟩⟩ ∧
    (handshake w id (some ⟨U, role⟩)).1.connected = w.connected ++ [id] ∧
    (handshake w id (some ⟨U, role⟩)).1.userSockets = w.userSockets ∧
    (handshake w id (some ⟨U, role⟩)).1.usernameToSocket = w.usernameToSocket ∧
    (getSession w.userSockets id = none →
      getSession (handshake w id (some ⟨U, role⟩)).1.userSockets id = none) ∧
    (ownEntry w.usernameToSocket U = none → U ∉ protoKeys →
      ∀ (sender : SocketId) (f m : Field) (now : Nat),
        dm (handshake w id (some ⟨U, role⟩)).1 sender ⟨some U, f, m⟩ now =
          ((handshake w id (some ⟨U, role⟩)).1,
           [⟨.socket sender, .dmError ("User " ++ U ++ " is not online.")⟩])) := by
  have hh : handshake w id (some ⟨U, role⟩) =
      ({ w with connected := w.connected ++ [id] }, some ⟨id, ⟨U, role⟩⟩) := by
    simp [handshake, authMiddleware, connection]
  rw [hh]
  refine ⟨rfl, rfl, rfl, rfl, fun h => h, ?_⟩
  intro hU hp sender f m now
  exact dm_offline_plain _ sender ⟨some U, f, m⟩ now hU hp

/-- Witness of C16 (amended): connection 2 is admitted as `abc` while nobody has joined. -/
theorem handshake_leaves_registry_witness :
    ownEntry oneOpen.usernameToSocket "abc" = none ∧ "abc" ∉ protoKeys ∧
    dm (handshake oneOpen 2 (some ⟨"abc", "user"⟩)).1 1 ⟨some "abc", some "xyz", some "hi"⟩ 5 =
      ((handshake oneOpen 2 (some ⟨"abc", "user"⟩)).1,
       [⟨.socket 1, .dmError ("User " ++ "abc" ++ " is not online.")⟩]) :=
  ⟨by decide, by decide,
   (handshake_leaves_registry oneOpen 2 "abc" "user").2.2.2.2.2 (by decide) (by decide)
     1 (some "xyz") (some "hi") 5⟩

/-- C19 (counterexample). Connection 1 is admitted with identity `xyz`, which is not on the
allow-list of `private`; its join-room with payload username `abc` succeeds, the Session of
the connection gets username `abc`, and the index registers the connection under `abc`, not
under `xyz`. -/
theorem session_ignores_identity :
    handshake World.empty 1 (some ⟨"xyz", "user"⟩) = (oneOpen, some ⟨1, ⟨"xyz", "user"⟩⟩) ∧
    includes ["admin", "abc"] (some "xyz") = false ∧
    (onJoinRoom rooms oneOpen ⟨1, ⟨"xyz", "user"⟩⟩ ⟨some "private", some "abc"⟩).2 =
      [⟨.socket 1, .joinRoomSuccess (some "private")⟩,
       ⟨.socket 1, .roomHistory []⟩,
       ⟨.room (some "private"), .roomUsers [some "abc"]⟩] ∧
    getSession (onJoinRoom rooms oneOpen ⟨1, ⟨"xyz", "user"⟩⟩
      ⟨some "private", some "abc"⟩).1.userSockets 1 = some ⟨some "abc", some "private"⟩ ∧
    (onJoinRoom rooms oneOpen ⟨1, ⟨"xyz", "user"⟩⟩
      ⟨some "private", some "abc"⟩).1.usernameToSocket = [("abc", 1)] := by
  decide

/-- C19 (amended). For a connection admitted with any identity, the username stored in its
Session by a join-room, the username checked against the allow-list of the room, and the
username under which the connection is registered in the index are all the username field
of the join-room payload: the join succeeds exactly when that username is on the
allow-list, and then the Session and the index entry carry it. -/
theorem session_binds_payload_username (store : List RoomDoc) (w : World) (socket : Socket)
    (R U : String) (d : RoomDoc) (hfind : store.find? (fun d => d.name == R) = some d) :
    onJoinRoom store w socket ⟨some R, some U⟩ = joinRoom store w socket.id ⟨some R, some U⟩ ∧
    (U ∈ d.allowedUsers →
      getSession (onJoinRoom store w socket ⟨some R, some U⟩).1.userSockets socket.id =
        some ⟨some U, some R⟩ ∧
      (U ≠ "__proto__" →
        ownEntry (onJoinRoom store w socket ⟨some R, some U⟩).1.usernameToSocket U =
          some socket.id)) ∧
    (U ∉ d.allowedUsers →
      onJoinRoom store w socket ⟨some R, some U⟩ =
        (w, [⟨.socket socket.id, .joinRoomError "You are not allowed to join this room."⟩])) := by
  refine ⟨rfl, ?_, ?_⟩
  · intro hU
    have hi : includes d.allowedUsers (some U) = true := (includes_some _ _).2 hU
    constructor
    · simp [onJoinRoom, joinRoom, findOne_some, hfind, hi, getSession, setSession,
        Dict.get_set_self]
    · intro hp
      simp [onJoinRoom, joinRoom, findOne_some, hfind, hi, setIndex, propKey, hp, ownEntry,
        Dict.get_set_self]
  · intro hU
    have hi : includes d.allowedUsers (some U) = false := by
      rw [← Bool.not_eq_true, includes_some]; exact hU
    simp [onJoinRoom, joinRoom, findOne_some, hfind, hi]

/-- Witness of C19 (amended): the socket admitted as `xyz` joins `private` as `abc`. -/
theorem session_binds_payload_username_witness :
    rooms.find? (fun d => d.name == "private") = some ⟨"private", ["admin", "abc"]⟩ ∧
    getSession (onJoinRoom rooms oneOpen ⟨1, ⟨"xyz", "user"⟩⟩
      ⟨some "private", some "abc"⟩).1.userSockets 1 = some ⟨some "abc", some "private"⟩ ∧
    ownEntry (onJoinRoom rooms oneOpen ⟨1, ⟨"xyz", "user"⟩⟩
      ⟨some "private", some "abc"⟩).1.usernameToSocket "abc" = some 1 :=
  ⟨by decide,
   ((session_binds_payload_username rooms oneOpen ⟨1, ⟨"xyz", "user"⟩⟩ "private" "abc"
     ⟨"private", ["admin", "abc"]⟩ (by decide)).2.1 (by decide)).1,
   ((session_binds_payload_username rooms oneOpen ⟨1, ⟨"xyz", "user"⟩⟩ "private" "abc"
     ⟨"private", ["admin", "abc"]⟩ (by decide)).2.1 (by decide)).2 (by decide)⟩

/-! ## One room at a time -/

/-- C18 (failing input). Connection 1 joins `general`, logs out and joins `private`: the
logout removed its Session without leaving the channel of `general`, so the join finds no
room to leave and the connection ends subscribed to both `general` and `private`. -/
theorem rejoin_after_logout_keeps_channel :
    wellFormed [] [] rejoinTrace = true ∧
    subscriptions rejoined 1 = [some "general", some "private"] ∧
    sessionRoom rejoined.userSockets 1 = some "private" ∧
    subscribers rejoined (some "general") = [1] := by
  decide

/-! ## Consistency of the index -/

theorem includes_eq_true_some {l : List String} {v : Field} (h : includes l v = true) :
    ∃ x, v = some x := by
  cases v with
  | none => simp [includes] at h
  | some x => exact ⟨x, rfl⟩

theorem roomMessage_registry (w : World) (id : SocketId) (data : RoomMessageData) (now : Nat) :
    ((roomMessage w id data now).1.userSockets = w.userSockets ∧
      (roomMessage w id data now).1.usernameToSocket = w.usernameToSocket) ∨
    (roomMessage w id data now).1 = processExit w := by
  unfold roomMessage
  by_cases hg : sessionRoom w.userSockets id = data.room
  · cases hc : Message.create w.messages ⟨data.user, none, data.room, data.msg⟩ now <;>
      simp [hg, hc]
  · simp [hg]

theorem dm_registry (w : World) (id : SocketId) (data : DmData) (now : Nat) :
    ((dm w id data now).1.userSockets = w.userSockets ∧
      (dm w id data now).1.usernameToSocket = w.usernameToSocket) ∨
    (dm w id data now).1 = processExit w := by
  unfold dm
  cases hi : getIndex w.usernameToSocket data.to_ with
  | none => simp
  | some t =>
    cases hc : Message.create w.messages ⟨data.from_, data.to_, none, data.msg⟩ now <;>
      simp [hc]

theorem IndexLive.processExit (w : World) : IndexLive (TChat.processExit w) := by
  intro U C h
  simp [TChat.processExit, ownEntry, Dict.get] at h

/-- Deleting the Session of `id` and the index entry of its username keeps the index
consistent. -/
theorem IndexLive.delete {w : World} (hw : IndexLive w) (id : SocketId) (u : Session)
    (h : getSession w.userSockets id = some u) {us : Dict SocketId Session}
    {ix : Dict String SocketId} (hus : us = deleteSession w.userSockets id)
    (hix : ix = deleteIndex w.usernameToSocket u.username) :
    ∀ (U : String) (C : SocketId), ownEntry ix U = some C →
      ∃ s, getSession us C = some s ∧ s.username = some U := by
  intro U C hUC
  subst hus hix
  have hne : U ≠ propKey u.username := by
    intro c
    rw [c] at hUC
    simp [ownEntry, deleteIndex, Dict.get_delete_self] at hUC
  have hold : ownEntry w.usernameToSocket U = some C := by
    simpa [ownEntry, deleteIndex, Dict.get_delete_of_ne _ _ _ hne] using hUC
  obtain ⟨s, hs, hsU⟩ := hw U C hold
  have hC : C ≠ id := by
    intro c
    rw [c, h] at hs
    have : u = s := by simpa using hs
    rw [← this] at hsU
    exact hne (by simp [hsU, propKey])
  exact ⟨s, by simpa [getSession, deleteSession, Dict.get_delete_of_ne _ _ _ hC] using hs, hsU⟩

/-- One consistent event keeps the index consistent. -/
theorem IndexLive.step (store : List RoomDoc) {w : World} (hw : IndexLive w) (e : Event)
    (he : consistentEvent w e = true) : IndexLive (TChat.step store w e).1 := by
  by_cases hx : w.exited = true
  · simpa [TChat.step, hx] using hw
  unfold TChat.step
  simp only [hx, Bool.false_eq_true, if_false]
  cases e with
  | connection id => exact hw
  | logout id =>
    simp only [logout]
    cases h : getSession w.userSockets id with
    | none => exact hw
    | some u => exact IndexLive.delete hw id u h rfl rfl
  | joinRoom id p =>
    simp only [joinRoom]
    cases hf : Room.findOne store p.room with
    | none => exact hw
    | some roomDoc =>
      by_cases hi : includes roomDoc.allowedUsers p.username = true
      · simp only [hi, Bool.not_true, Bool.false_eq_true, if_false]
        obtain ⟨x, hx⟩ := includes_eq_true_some hi
        intro U C hUC
        simp only [getSession, setSession] at *
        have hkeep : ∀ U C, ownEntry w.usernameToSocket U = some C →
            ∃ s, Dict.get (Dict.set w.userSockets id ⟨p.username, p.room⟩) C = some s ∧
              s.username = some U := by
          intro U C hold
          obtain ⟨s, hs, hsU⟩ := hw U C hold
          by_cases hC : C = id
          · subst hC
            simp only [consistentEvent, getSession] at he
            simp only [getSession] at hs
            rw [hs] at he
            have : s.username = p.username := by simpa using he
            exact ⟨_, Dict.get_set_self _ _ _, by rw [← this, hsU]⟩
          · exact ⟨s, by rw [Dict.get_set_of_ne _ _ _ _ hC]; exact hs, hsU⟩
        by_cases hp : propKey p.username = "__proto__"
        · simp only [setIndex, hp, if_true] at hUC
          exact hkeep U C hUC
        · simp only [setIndex, hp, if_false, ownEntry] at hUC
          by_cases hU : U = propKey p.username
          · rw [hU, Dict.get_set_self] at hUC
            have hC : C = id := by simpa using hUC.symm
            subst hC
            refine ⟨_, Dict.get_set_self _ _ _, ?_⟩
            simp [hU, hx, propKey]
          · rw [Dict.get_set_of_ne _ _ _ _ hU] at hUC
            exact hkeep U C hUC
      · have hi' : includes roomDoc.allowedUsers p.username = false := by
          simpa using hi
        simp only [hi', Bool.not_false, if_true]
        exact hw
  | leaveRoom id p =>
    simp only [leaveRoom]
    cases h : getSession w.userSockets id with
    | none => exact hw
    | some u =>
      by_cases hr : u.room = p.room
      · simp only [hr, if_true]
        intro U C hUC
        obtain ⟨s, hs, hsU⟩ := hw U C hUC
        by_cases hC : C = id
        · subst hC
          rw [h] at hs
          have : u = s := by simpa using hs
          subst this
          exact ⟨{ u with room := none },
            by simp [getSession, setSession, Dict.get_set_self], hsU⟩
        · exact ⟨s, by
            simp only [getSession, setSession] at hs ⊢
            rw [Dict.get_set_of_ne _ _ _ _ hC]; exact hs, hsU⟩
      · simp only [hr, if_false]
        exact hw
  | roomMessage id data now =>
    rcases roomMessage_registry w id data now with ⟨h1, h2⟩ | h
    · intro U C hUC
      rw [h2] at hUC
      rw [h1]
      exact hw U C hUC
    · show IndexLive (roomMessage w id data now).1
      rw [h]
      exact IndexLive.processExit w
  | dm id data now =>
    rcases dm_registry w id data now with ⟨h1, h2⟩ | h
    · intro U C hUC
      rw [h2] at hUC
      rw [h1]
      exact hw U C hUC
    · show IndexLive (dm w id data now).1
      rw [h]
      exact IndexLive.processExit w
  | getDmHistory id p => exact hw
  | getUsers id room => exact hw
  | disconnect id =>
    simp only [disconnect]
    cases h : getSession w.userSockets id with
    | none =>
      intro U C hUC
      obtain ⟨s, hs, hsU⟩ := hw U C hUC
      have hC : C ≠ id := by
        intro c
        rw [c, h] at hs
        simp at hs
      exact ⟨s, by
        simp only [getSession, deleteSession] at hs ⊢
        rw [Dict.get_delete_of_ne _ _ _ hC]; exact hs, hsU⟩
    | some u =>
      have ht : truthy u.room = true := by
        simpa [consistentEvent, h] using he
      simp only [ht, if_true]
      exact IndexLive.delete hw id u h rfl rfl

theorem IndexLive.run (store : List RoomDoc) (es : List Event) :
    ∀ w : World, IndexLive w → consistentRun store w es = true →
      IndexLive (TChat.run store w es) := by
  induction es with
  | nil => intro w hw _; exact hw
  | cons e es ih =>
    intro w hw hc
    simp only [consistentRun, Bool.and_eq_true] at hc
    exact ih _ (IndexLive.step store hw e hc.1) hc.2

/-- C20 (counterexample). Connection 1 joins `general` as `abc` and then as `xyz`: the index
still maps `abc` to connection 1, whose Session now has username `xyz`, so the reachable
state `renamed` is not consistent. -/
theorem rename_leaves_stale_entry :
    wellFormed [] [] renameTrace = true ∧
    ownEntry renamed.usernameToSocket "abc" = some 1 ∧
    getSession renamed.userSockets 1 = some ⟨some "xyz", some "general"⟩ ∧
    ¬ IndexLive renamed := by
  refine ⟨by decide, by decide, by decide, ?_⟩
  intro h
  obtain ⟨s, hs, hsU⟩ := h "abc" 1 (by decide)
  have h1 : getSession renamed.userSockets 1 = some ⟨some "xyz", some "general"⟩ := by decide
  rw [h1] at hs
  have hs' : s = ⟨some "xyz", some "general"⟩ := by simpa using hs.symm
  rw [hs'] at hsU
  revert hsU
  decide

/-- C20 (amended). After any sequence of events from the state at server start in which
every join-room comes on a connection that has no Session or whose Session already carries
the username of the payload, and every disconnect on a connection that has no Session or
whose Session has a room, every entry `usernameToSocket[U] = C` points to a connection that
has a Session with username `U`. -/
theorem index_live_of_consistent (store : List RoomDoc) (es : List Event)
    (hc : consistentRun store World.empty es = true) :
    IndexLive (run store World.empty es) :=
  IndexLive.run store es World.empty (fun U C h => by simp [World.empty, ownEntry, Dict.get] at h)
    hc

/-- Witness of C20 (amended): after `twoLoginsTrace` the entry of `abc` points to
connection 2, whose Session has username `abc`. -/
theorem index_live_of_consistent_witness :
    consistentRun rooms World.empty twoLoginsTrace = true ∧
    ownEntry twoLogins.usernameToSocket "abc" = some 2 ∧
    IndexLive (run rooms World.empty twoLoginsTrace) :=
  ⟨by decide, by decide, index_live_of_consistent rooms twoLoginsTrace (by decide)⟩

/-! ## Changing room from a Session that has a room -/

theorem getUsersInRoom_set_other (us : Dict SocketId Session) (id : SocketId) (u v : Session)
    (R : Field) (hnd : (us.map Prod.fst).Nodup) (h : Dict.get us id = some u)
    (hv : v.room ≠ R) :
    getUsersInRoom (Dict.set us id v) R = getUsersInRoom (Dict.delete us id) R := by
  induction us with
  | nil => simp [Dict.get] at h
  | cons e us ih =>
    simp only [List.map_cons, List.nodup_cons] at hnd
    by_cases h1 : e.1 = id
    · have hno : Dict.get us id = none := Dict.get_eq_none_of_not_mem_keys _ _ (h1 ▸ hnd.1)
      simp [Dict.set, Dict.delete, h1, getUsersInRoom_cons, hv,
        Dict.delete_of_get_none _ _ hno]
    · simp only [Dict.get, h1, if_false] at h
      simp [Dict.set, Dict.delete, h1, getUsersInRoom_cons, ih hnd.2 h]

/-- A successful join of `R2` on a connection whose Session has the non-empty room
`R1 ≠ R2` leaves the channel of `R1` and subscribes to `R2`; the Session room becomes `R2`,
and with one Session per connection the connection no longer counts among the members of
`R1`. -/
theorem join_room_switches_channel (store : List RoomDoc) (w : World) (id : SocketId)
    (R1 R2 U : String) (d : RoomDoc) (u : Session)
    (hfind : store.find? (fun d => d.name == R2) = some d) (hU : U ∈ d.allowedUsers)
    (h : getSession w.userSockets id = some u) (hR1 : u.room = some R1) (hne : R1 ≠ "")
    (hd : R1 ≠ R2) :
    (id, some R1) ∉ (joinRoom store w id ⟨some R2, some U⟩).1.adapter ∧
    (id, some R2) ∈ (joinRoom store w id ⟨some R2, some U⟩).1.adapter ∧
    sessionRoom (joinRoom store w id ⟨some R2, some U⟩).1.userSockets id = some R2 ∧
    ((w.userSockets.map Prod.fst).Nodup →
      getUsersInRoom (joinRoom store w id ⟨some R2, some U⟩).1.userSockets (some R1) =
        getUsersInRoom (deleteSession w.userSockets id) (some R1)) := by
  have hi : includes d.allowedUsers (some U) = true := (includes_some _ _).2 hU
  have hs : sessionRoom w.userSockets id = some R1 := by simp [sessionRoom, h, hR1]
  have ht : truthy (some R1) = true := by simp [truthy, hne]
  have hj : joinRoom store w id ⟨some R2, some U⟩ =
      ({ w with
          adapter := adapterJoin (adapterLeave w.adapter id (some R1)) id (some R2)
          userSockets := setSession w.userSockets id ⟨some U, some R2⟩
          usernameToSocket := setIndex w.usernameToSocket (some U) id },
       [⟨.socket id, .joinRoomSuccess (some R2)⟩,
        ⟨.socket id, .roomHistory (roomHistory w.messages (some R2))⟩,
        ⟨.room (some R2), .roomUsers
          (getUsersInRoom (setSession w.userSockets id ⟨some U, some R2⟩) (some R2))⟩]) := by
    simp [joinRoom, findOne_some, hfind, hi, hs, ht]
  rw [hj]
  refine ⟨?_, mem_adapterJoin _ _ _, ?_, ?_⟩
  · have hleft : (id, some R1) ∉ adapterLeave w.adapter id (some R1) := by
      simp [adapterLeave, List.mem_filter]
    unfold adapterJoin
    by_cases hm : (id, some R2) ∈ adapterLeave w.adapter id (some R1)
    · simpa [hm] using hleft
    · simp only [hm, if_false, List.mem_append, List.mem_singleton, not_or]
      exact ⟨hleft, by simp [hd]⟩
  · simp [sessionRoom, getSession, setSession, Dict.get_set_self]
  · intro hnd
    exact getUsersInRoom_set_other w.userSockets id u ⟨some U, some R2⟩ (some R1) hnd h
      (by simp [Ne.symm hd])

end TChat
